import Mathlib

set_option maxRecDepth 10000

/-!
Shallow embedding of the diy-llm-bot-api gateway (src/index.ts and the
newest snapshot in src/unnamed/part_002).  Strings are modelled as lists
of characters; the upstream byte stream is modelled as the list of chunk
strings the reader receives (the sample inputs are ASCII, so characters
and bytes coincide); JSON.parse is modelled by a small recursive-descent
reader over the same representation.  All definitions are executable and
fuel-based where recursion is not structural, so concrete runs reduce in
the kernel.
-/

/-! ### Character-list strings and the small JS string helpers used by the code -/

abbrev Str := List Char

def chars (s : String) : Str := s.data

/-- Concatenation of a list of chunk strings. -/
def concatAll : List Str → Str
  | [] => []
  | c :: cs => c ++ concatAll cs

/-- ASCII whitespace recognised by String.prototype.trim. -/
def jsWsChar (c : Char) : Bool :=
  c == ' ' || c == '\t' || c == '\n' || c == '\r' || c == '\x0b' || c == '\x0c'

/-- Model of String.prototype.trim (both ends). -/
def jsTrim (s : Str) : Str :=
  ((s.dropWhile jsWsChar).reverse.dropWhile jsWsChar).reverse

/-- Model of String.prototype.startsWith: leadsWith s p is true when p
begins s. -/
def leadsWith : Str → Str → Bool
  | _, [] => true
  | [], _ :: _ => false
  | c :: s, p :: ps => c == p && leadsWith s ps

/-- Model of dataString.replace of the CRLF regular expression by a
newline, applied per chunk inside DoubleNewlineReader (src/index.ts line
173): non-overlapping left-to-right replacement of the pair CR LF by LF. -/
def normalizeCRLF : Str → Str
  | [] => []
  | [c] => [c]
  | c1 :: c2 :: rest =>
    if c1 = '\r' && c2 = '\n' then '\n' :: normalizeCRLF rest
    else c1 :: normalizeCRLF (c2 :: rest)

/-- Model of buffer.indexOf of a double newline plus the two substring
calls in readUntilDoubleNewline (src/index.ts lines 158-162): on success
the first component is the text up to and including the first double
newline, the second is the rest. -/
def splitAtDN : Str → Option (Str × Str)
  | [] => none
  | [_] => none
  | c1 :: c2 :: rest =>
    if c1 = '\n' && c2 = '\n' then some (['\n', '\n'], rest)
    else
      match splitAtDN (c2 :: rest) with
      | none => none
      | some (f, r) => some (c1 :: f, r)

/-- One step of String.prototype.split on a double newline: the part
before the first double newline (delimiter removed) and the rest. -/
def splitOnceDN : Str → Option (Str × Str)
  | [] => none
  | [_] => none
  | c1 :: c2 :: rest =>
    if c1 = '\n' && c2 = '\n' then some ([], rest)
    else
      match splitOnceDN (c2 :: rest) with
      | none => none
      | some (p, r) => some (c1 :: p, r)

def splitOnDNF : Nat → Str → List Str
  | 0, s => [s]
  | fuel + 1, s =>
    match splitOnceDN s with
    | none => [s]
    | some (p, r) => p :: splitOnDNF fuel r

/-- Model of chunkString.split on a double newline (src/index.ts line 95). -/
def splitOnDN (s : Str) : List Str := splitOnDNF (s.length + 1) s

/-! ### A model of JSON.parse

JSON values; a numeric literal keeps its raw token (no claim inspects a
numeric value, only JS truthiness, which is decidable from the token). -/

inductive Json where
  | null
  | bool (b : Bool)
  | num (raw : Str)
  | str (s : Str)
  | arr (elems : List Json)
  | obj (fields : List (Str × Json))

/-- True when the numeric literal denotes zero: every mantissa digit is 0. -/
def numIsZero (raw : Str) : Bool :=
  let m := match raw with
    | '-' :: r => r
    | _ => raw
  (m.takeWhile (fun c => !(c == 'e' || c == 'E'))).all (fun c => c == '0' || c == '.')

/-- JS falsiness of a JSON value (undefined is handled by Option none at
use sites). -/
def jsFalsy : Json → Bool
  | Json.null => true
  | Json.bool b => !b
  | Json.num raw => numIsZero raw
  | Json.str s => s.isEmpty
  | _ => false

/-- Property read v.k in JS on a parsed JSON value: some value for an own
field of an object (with JSON.parse duplicate-key semantics, the last
binding wins), none (undefined) otherwise. -/
def jsGetField (j : Json) (key : Str) : Option Json :=
  match j with
  | Json.obj fields => (fields.reverse.find? (fun f => f.1 == key)).map (fun f => f.2)
  | _ => none

def skipWs : Str → Str
  | [] => []
  | c :: rest =>
    if c == ' ' || c == '\t' || c == '\n' || c == '\r' then skipWs rest
    else c :: rest

def hexVal (c : Char) : Option Nat :=
  if '0' ≤ c ∧ c ≤ '9' then some (c.toNat - 48)
  else if 'a' ≤ c ∧ c ≤ 'f' then some (c.toNat - 87)
  else if 'A' ≤ c ∧ c ≤ 'F' then some (c.toNat - 55)
  else none

/-- Body of a JSON string literal after the opening quote; surrogate-pair
combination of unicode escapes is not modelled (no input here uses it). -/
def parseStrTail : Nat → Str → Option (Str × Str)
  | 0, _ => none
  | _ + 1, [] => none
  | fuel + 1, c :: rest =>
    if c = '"' then some ([], rest)
    else if c = '\\' then
      match rest with
      | [] => none
      | e :: rest2 =>
        if e = '"' then (parseStrTail fuel rest2).map (fun pr => ('"' :: pr.1, pr.2))
        else if e = '\\' then (parseStrTail fuel rest2).map (fun pr => ('\\' :: pr.1, pr.2))
        else if e = '/' then (parseStrTail fuel rest2).map (fun pr => ('/' :: pr.1, pr.2))
        else if e = 'b' then (parseStrTail fuel rest2).map (fun pr => ('\x08' :: pr.1, pr.2))
        else if e = 'f' then (parseStrTail fuel rest2).map (fun pr => ('\x0c' :: pr.1, pr.2))
        else if e = 'n' then (parseStrTail fuel rest2).map (fun pr => ('\n' :: pr.1, pr.2))
        else if e = 'r' then (parseStrTail fuel rest2).map (fun pr => ('\r' :: pr.1, pr.2))
        else if e = 't' then (parseStrTail fuel rest2).map (fun pr => ('\t' :: pr.1, pr.2))
        else if e = 'u' then
          match rest2 with
          | h1 :: h2 :: h3 :: h4 :: rest3 =>
            match hexVal h1, hexVal h2, hexVal h3, hexVal h4 with
            | some a, some b, some c3, some d =>
              (parseStrTail fuel rest3).map
                (fun pr => (Char.ofNat (((a * 16 + b) * 16 + c3) * 16 + d) :: pr.1, pr.2))
            | _, _, _, _ => none
          | _ => none
        else none
    else if c.toNat < 32 then none
    else (parseStrTail fuel rest).map (fun pr => (c :: pr.1, pr.2))

def takeDigits (s : Str) : Str × Str :=
  (s.takeWhile (fun c => c.isDigit), s.dropWhile (fun c => c.isDigit))

def parseIntPart (s : Str) : Option (Str × Str) :=
  match s with
  | [] => none
  | c :: r =>
    if c = '0' then some (['0'], r)
    else if c.isDigit then
      match takeDigits r with
      | (ds, r2) => some (c :: ds, r2)
    else none

def parseFrac (s : Str) : Option (Str × Str) :=
  match s with
  | '.' :: r =>
    match takeDigits r with
    | (ds, r2) => if ds = [] then none else some ('.' :: ds, r2)
  | _ => some ([], s)

def parseExp (s : Str) : Option (Str × Str) :=
  match s with
  | [] => some ([], [])
  | e :: r =>
    if e = 'e' || e = 'E' then
      match (match r with
             | '+' :: rr => ((['+'] : Str), rr)
             | '-' :: rr => ((['-'] : Str), rr)
             | _ => (([] : Str), r)) with
      | (sgn, r1) =>
        match takeDigits r1 with
        | (ds, r2) => if ds = [] then none else some (e :: (sgn ++ ds), r2)
    else some ([], s)

def parseNumTok (s : Str) : Option (Str × Str) :=
  match (match s with
         | '-' :: r => ((['-'] : Str), r)
         | _ => (([] : Str), s)) with
  | (sgn, s1) =>
    match parseIntPart s1 with
    | none => none
    | some (ip, s2) =>
      match parseFrac s2 with
      | none => none
      | some (fp, s3) =>
        match parseExp s3 with
        | none => none
        | some (ep, s4) => some (sgn ++ ip ++ fp ++ ep, s4)

mutual

def parseJsonV : Nat → Str → Option (Json × Str)
  | 0, _ => none
  | fuel + 1, s =>
    match skipWs s with
    | 'n' :: 'u' :: 'l' :: 'l' :: r => some (Json.null, r)
    | 't' :: 'r' :: 'u' :: 'e' :: r => some (Json.bool true, r)
    | 'f' :: 'a' :: 'l' :: 's' :: 'e' :: r => some (Json.bool false, r)
    | '"' :: r => (parseStrTail (r.length + 1) r).map (fun pr => (Json.str pr.1, pr.2))
    | '[' :: r =>
      (match skipWs r with
       | ']' :: r2 => some (Json.arr [], r2)
       | _ => (parseArrItems fuel r).map (fun pr => (Json.arr pr.1, pr.2)))
    | '\x7b' :: r =>
      (match skipWs r with
       | '\x7d' :: r2 => some (Json.obj [], r2)
       | _ => (parseObjItems fuel r).map (fun pr => (Json.obj pr.1, pr.2)))
    | s2 => (parseNumTok s2).map (fun pr => (Json.num pr.1, pr.2))

def parseArrItems : Nat → Str → Option (List Json × Str)
  | 0, _ => none
  | fuel + 1, s =>
    match parseJsonV fuel s with
    | none => none
    | some (v, r) =>
      match skipWs r with
      | ',' :: r2 => (parseArrItems fuel r2).map (fun pr => (v :: pr.1, pr.2))
      | ']' :: r2 => some ([v], r2)
      | _ => none

def parseObjItems : Nat → Str → Option (List (Str × Json) × Str)
  | 0, _ => none
  | fuel + 1, s =>
    match skipWs s with
    | '"' :: r =>
      (match parseStrTail (r.length + 1) r with
       | none => none
       | some (k, r2) =>
         match skipWs r2 with
         | ':' :: r3 =>
           (match parseJsonV fuel r3 with
            | none => none
            | some (v, r4) =>
              match skipWs r4 with
              | ',' :: r5 => (parseObjItems fuel r5).map (fun pr => ((k, v) :: pr.1, pr.2))
              | '\x7d' :: r5 => some ([(k, v)], r5)
              | _ => none)
         | _ => none)
    | _ => none

end

/-- Model of JSON.parse: one value, then only whitespace may remain. -/
def jsonParse (s : Str) : Option Json :=
  match parseJsonV (2 * s.length + 2) s with
  | some (v, r) => if skipWs r = [] then some v else none
  | none => none

/-! ### chunkToDataArray (src/index.ts lines 94-109, identical in part_002
lines 129-144) -/

def doneLineChars : Str := chars ("data: [DONE]")

/-- The loop body over the lines of one frame: lines are the result of
splitting on double newlines; a line starting with the data marker is
either the DONE sentinel (the function returns the entries accumulated so
far and stops looking at later lines) or a JSON payload (a parse failure
is the JS exception, Except.error). -/
def chunkGo : List Str → Except Unit (List Json)
  | [] => Except.ok []
  | line :: rest =>
    let dataLine := jsTrim line
    if leadsWith dataLine (chars ("data: ")) then
      if dataLine = doneLineChars then Except.ok []
      else
        match jsonParse (dataLine.drop 6) with
        | none => Except.error ()
        | some j => (chunkGo rest).map (fun arr => j :: arr)
    else chunkGo rest

def chunkToDataArray (chunkString : Str) : Except Unit (List Json) :=
  chunkGo (splitOnDN chunkString)

/-! ### Per-event extraction in the chat-style loop
(src/index.ts lines 353-364, part_002 lines 348-359) -/

def choicesKey : Str := chars ("choices")
def deltaKey : Str := chars ("delta")
def contentKey : Str := chars ("content")
def textKey : Str := chars ("text")

/-- Reading delta.content with the nullish default: undefined or null
content gives the empty fragment; a string is emitted as is; any other
value makes res.write throw. -/
def deltaContent (dv : Json) : Except Unit (Option Str) :=
  match jsGetField dv contentKey with
  | none => Except.ok (some [])
  | some Json.null => Except.ok (some [])
  | some (Json.str s) => Except.ok (some s)
  | some _ => Except.error ()

/-- Destructuring the last choice: destructuring null throws; a missing or
null delta makes the later delta.content access throw. -/
def lastChoiceContent : Json → Except Unit (Option Str)
  | Json.null => Except.error ()
  | lc =>
    match jsGetField lc deltaKey with
    | none => Except.error ()
    | some Json.null => Except.error ()
    | some dv => deltaContent dv

/-- Indexing choices at length minus one: for a non-empty array this is the
last element; for an empty array the element is undefined and destructuring
throws; every truthy non-array value also ends in a thrown TypeError. -/
def choicesContent : Json → Except Unit (Option Str)
  | Json.arr l =>
    match l.getLast? with
    | none => Except.error ()
    | some lc => lastChoiceContent lc
  | _ => Except.error ()

/-- One chat event: a missing or falsy choices field is skipped (ok none),
otherwise the last choice is read. -/
def chatEventContent (data : Json) : Except Unit (Option Str) :=
  match jsGetField data choicesKey with
  | none => Except.ok none
  | some v => if jsFalsy v then Except.ok none else choicesContent v

/-- The for loop over one frame's events in the chat branch: emitted
fragments in order, with a flag recording whether the loop threw (fragments
already written stay written). -/
def processEvents : List Json → List Str × Bool
  | [] => ([], false)
  | e :: es =>
    match chatEventContent e with
    | Except.error _ => ([], true)
    | Except.ok none => processEvents es
    | Except.ok (some s) =>
      match processEvents es with
      | (rest, err) => (s :: rest, err)

/-- One single-prompt event: data.choices[0].text; anything but a string
text on a first choice throws. -/
def instructEventContent (data : Json) : Except Unit Str :=
  match jsGetField data choicesKey with
  | some (Json.arr (c :: _)) =>
    (match jsGetField c textKey with
     | some (Json.str s) => Except.ok s
     | _ => Except.error ())
  | _ => Except.error ()

def processInstructEvents : List Json → List Str × Bool
  | [] => ([], false)
  | e :: es =>
    match instructEventContent e with
    | Except.error _ => ([], true)
    | Except.ok s =>
      match processInstructEvents es with
      | (rest, err) => (s :: rest, err)

/-! ### DoubleNewlineReader (src/index.ts lines 145-178) and the streaming
loops -/

/-- readUntilDoubleNewline over a pending buffer and the list of chunks
still to be read: a found frame returns done false with the frame (the
buffer keeps the remainder); an exhausted source returns done true with
whatever text is left (the driver discards that value). -/
def readUntilDoubleNewline : Str → List Str → Bool × Str × Str × List Str
  | b, cs =>
    match splitAtDN b with
    | some (f, r) => (false, f, r, cs)
    | none =>
      match cs with
      | [] => (true, b, [], [])
      | c :: rest => readUntilDoubleNewline (b ++ normalizeCRLF c) rest

/-- The text the reader still holds: buffer plus every remaining chunk
after its per-chunk CRLF normalization. -/
def material (b : Str) (cs : List Str) : Str := b ++ concatAll (cs.map normalizeCRLF)

/-- The chat-style driver loop of postGenerateChatCompletionStreaming
(src/index.ts lines 346-365): read frames until done, per frame run
chunkToDataArray and emit each event's fragment.  Fuel-based; none means
fuel ran out, some gives (fragments written, whether the request threw). -/
def postGenerateChatLoop : Nat → Str → List Str → Option (List Str × Bool)
  | 0, _, _ => none
  | fuel + 1, b, cs =>
    match readUntilDoubleNewline b cs with
    | (true, _, _, _) => some ([], false)
    | (false, frame, b2, cs2) =>
      match chunkToDataArray frame with
      | Except.error _ => some ([], true)
      | Except.ok events =>
        match processEvents events with
        | (outs, true) => some (outs, true)
        | (outs, false) =>
          match postGenerateChatLoop fuel b2 cs2 with
          | none => none
          | some (rest, err) => some (outs ++ rest, err)

/-- The frames a complete input decomposes into: repeatedly cut at the
first double newline; a trailing remainder without one is dropped, exactly
as the driver drops the done value. -/
def batchFramesF : Nat → Str → List Str
  | 0, _ => []
  | fuel + 1, s =>
    match splitAtDN s with
    | none => []
    | some (f, r) => f :: batchFramesF fuel r

/-- The chat pipeline applied to an already-framed input. -/
def chatBatch : List Str → List Str × Bool
  | [] => ([], false)
  | f :: fs =>
    match chunkToDataArray f with
    | Except.error _ => ([], true)
    | Except.ok events =>
      match processEvents events with
      | (outs, true) => (outs, true)
      | (outs, false) =>
        match chatBatch fs with
        | (rest, err) => (outs ++ rest, err)

/-! ### The part_002 stream functions with reader cancellation
(streamChatCompletion lines 337-367, streamInstructCompletion lines
411-437): the loop body runs in a try block whose catch cancels the reader
and rethrows, and the normal exit also cancels. -/

inductive ReadEv where
  | chunk (c : Str)
  | fail

/-- readUntilDoubleNewline when a read may reject: a rejecting read throws
out of the reader into the caller. -/
def readUntilDoubleNewlineOrFail : Str → List ReadEv → Except Unit (Bool × Str × Str × List ReadEv)
  | b, rs =>
    match splitAtDN b with
    | some (f, r) => Except.ok (false, f, r, rs)
    | none =>
      match rs with
      | [] => Except.ok (true, b, [], [])
      | ReadEv.fail :: _ => Except.error ()
      | ReadEv.chunk c :: rest => readUntilDoubleNewlineOrFail (b ++ normalizeCRLF c) rest

structure StreamOutcome where
  emitted : List Str
  errored : Bool
  cancelled : Bool

/-- streamChatCompletion after getReader: every thrown error is caught,
the reader is cancelled and the error rethrown; the normal exit cancels
too. -/
def streamChatCompletionLoop : Nat → Str → List ReadEv → Option StreamOutcome
  | 0, _, _ => none
  | fuel + 1, b, rs =>
    match readUntilDoubleNewlineOrFail b rs with
    | Except.error _ => some ⟨[], true, true⟩
    | Except.ok (true, _, _, _) => some ⟨[], false, true⟩
    | Except.ok (false, frame, b2, rs2) =>
      match chunkToDataArray frame with
      | Except.error _ => some ⟨[], true, true⟩
      | Except.ok events =>
        match processEvents events with
        | (outs, true) => some ⟨outs, true, true⟩
        | (outs, false) =>
          match streamChatCompletionLoop fuel b2 rs2 with
          | none => none
          | some o => some ⟨outs ++ o.emitted, o.errored, o.cancelled⟩

/-- streamInstructCompletion after getReader, same shape with the
choices[0].text extraction. -/
def streamInstructCompletionLoop : Nat → Str → List ReadEv → Option StreamOutcome
  | 0, _, _ => none
  | fuel + 1, b, rs =>
    match readUntilDoubleNewlineOrFail b rs with
    | Except.error _ => some ⟨[], true, true⟩
    | Except.ok (true, _, _, _) => some ⟨[], false, true⟩
    | Except.ok (false, frame, b2, rs2) =>
      match chunkToDataArray frame with
      | Except.error _ => some ⟨[], true, true⟩
      | Except.ok events =>
        match processInstructEvents events with
        | (outs, true) => some ⟨outs, true, true⟩
        | (outs, false) =>
          match streamInstructCompletionLoop fuel b2 rs2 with
          | none => none
          | some o => some ⟨outs ++ o.emitted, o.errored, o.cancelled⟩

/-! ### generatePrompt (src/index.ts lines 111-142) and the instruct
request builder (part_002 streamInstructCompletion lines 369-396) -/

inductive Party where
  | human
  | bot
deriving DecidableEq

structure Msg where
  text : Str
  name : String
  party : Party
  id : String

def promptPreamble : Str :=
  chars ("Hello, I am a chatbot powered by GPT-3. You can ask me anything and I will try my best to answer your questions.\n\nTo format my responses with code blocks, you can use the following markdown syntax:\n\n```\nYour code goes here\n```\n\nTo format my responses with inline code, you can use the following markdown syntax:\n\n`Your code goes here`\n\nFeel free to ask me anything and I will do my best to help.\n\n")

def messageBlock (m : Msg) : Str :=
  match m.party with
  | Party.human => chars ("Human: ") ++ jsTrim m.text ++ chars ("\n\n")
  | Party.bot => chars ("Bot: ") ++ jsTrim m.text ++ chars ("\n\n")

def renderLoop : List Msg → Str
  | [] => []
  | m :: rest => messageBlock m ++ renderLoop rest

/-- messages.slice applied to minus n: the last n messages (all of them
when fewer). -/
def jsSliceLast (n : Nat) (l : List Msg) : List Msg := l.drop (l.length - n)

def generatePrompt (messages : List Msg) : Str :=
  promptPreamble ++ renderLoop (jsSliceLast 25 messages) ++ chars ("Bot: ")

def MAX_TOKENS : Nat := 4097
def TOKENS_SAFETY_MARGIN : Nat := 25

structure InstructRequest where
  model : String
  prompt : Str
  max_tokens : Int
  stream : Bool
  stop : String

inductive InstructResult where
  | tooManyTokens
  | request (r : InstructRequest)

/-- The pre-dispatch part of streamInstructCompletion: render the prompt,
count its tokens with the tokenizer (an external collaborator, passed as a
function), fail when the budget is exhausted, otherwise shape the outbound
request; constructing the request value is the model of issuing the fetch. -/
def streamInstructRequest (tok : Str → Nat) (model : String) (messages : List Msg) : InstructResult :=
  let prompt := generatePrompt messages
  let promptTokens := tok prompt
  if MAX_TOKENS - TOKENS_SAFETY_MARGIN ≤ promptTokens then InstructResult.tooManyTokens
  else
    InstructResult.request
      ⟨model, prompt, (MAX_TOKENS : Int) - (promptTokens : Int) - (TOKENS_SAFETY_MARGIN : Int),
       true, "END_OF_STREAM"⟩

/-! ### timeSafeCompare (src/index.ts lines 180-186) and the auth uses -/

/-- Brad Hill double HMAC pattern: hash both inputs with one fresh key,
compare the digests (two digests of the same algorithm have equal length,
so timingSafeEqual is content equality), and fall back to exact string
equality.  The hash and the random key are abstract parameters. -/
def timeSafeCompare (hmac : String → String → List Nat) (key : String) (a b : String) : Bool :=
  (hmac key a == hmac key b) && (a == b)

/-- The privileged-model gate inside streamChatCompletion (part_002 lines
289-291): true when the request is not rejected by the auth check.  A
missing cookie and a missing secret both default to the empty string. -/
def authGateAllows (hmac : String → String → List Nat) (key : String) (authed : Bool)
    (authKey : Option String) (secretAuthKey : Option String) : Bool :=
  !(authed && !(timeSafeCompare hmac key (authKey.getD ("")) (secretAuthKey.getD (""))))

/-- The isAuthed field written by postIsAuthed (src/index.ts lines
450-453). -/
def isAuthedValue (hmac : String → String → List Nat) (key : String)
    (authKey : Option String) (secretAuthKey : Option String) : Bool :=
  timeSafeCompare hmac key (authKey.getD ("")) (secretAuthKey.getD (""))

/-! ### Provider registry (part_002 lines 34-57 and 243-284) and the
generate endpoint pipeline up to dispatch (part_002 lines 439-474) -/

inductive Provider where
  | deepinfra
  | together
  | openrouter
  | openai

def MODEL_TO_PROVIDER : List (String × Provider) :=
  [("mistralai/Mixtral-8x7B-Instruct-v0.1", Provider.deepinfra),
   ("meta-llama/Meta-Llama-3.1-405B-Instruct", Provider.deepinfra),
   ("meta-llama/Llama-3-70b-chat-hf", Provider.together),
   ("anthropic/claude-3-opus:beta", Provider.openrouter),
   ("anthropic/claude-3.5-sonnet", Provider.openrouter),
   ("mistralai/mistral-large", Provider.openrouter),
   ("deepseek/deepseek-coder", Provider.openrouter),
   ("gpt-3.5-turbo-instruct", Provider.openai),
   ("gpt-3.5-turbo", Provider.openai),
   ("gpt-4", Provider.openai),
   ("gpt-4-1106-preview", Provider.openai),
   ("gpt-4.1", Provider.openai),
   ("gpt-4.1-mini", Provider.openai),
   ("gpt-4.1-nano", Provider.openai),
   ("gpt-5", Provider.openai),
   ("gpt-5-chat-latest", Provider.openai),
   ("gpt-4o-mini", Provider.openai),
   ("gpt-4o", Provider.openai),
   ("o1-preview", Provider.openai),
   ("o1-mini", Provider.openai)]

def MODELS : List String := MODEL_TO_PROVIDER.map (fun p => p.1)

def AUTHED_MODELS : List String :=
  ["gpt-4", "gpt-4.1", "gpt-4.1-mini", "gpt-4.1-nano", "gpt-5",
   "gpt-5-chat-latest", "o1-preview", "o1-mini"]

def getProviderOf (model : String) : Option Provider :=
  (MODEL_TO_PROVIDER.find? (fun p => p.1 == model)).map (fun p => p.2)

inductive ApiType where
  | chat
  | instruct
deriving DecidableEq

inductive SysMsg where
  | default
  | custom
deriving DecidableEq

structure Secrets where
  DEEPINFRA_BEARER_TOKEN : Option String
  TOGETHER_BEARER_TOKEN : Option String
  OPENROUTER_BEARER_TOKEN : Option String
  BEARER_TOKEN : Option String
  AUTH_KEY : Option String

structure ModelConfig where
  apiType : ApiType
  systemMessage : SysMsg
  bearerToken : Option String
  apiUrl : String
  stop : Option String
  authed : Bool

def getModelConfig (secrets : Secrets) (model : String) : Option ModelConfig :=
  match getProviderOf model with
  | none => none
  | some Provider.deepinfra =>
    some ⟨ApiType.chat, SysMsg.default, secrets.DEEPINFRA_BEARER_TOKEN,
          "https://api.deepinfra.com/v1/openai/chat/completions",
          some ("END_OF_STREAM"), AUTHED_MODELS.contains model⟩
  | some Provider.together =>
    some ⟨ApiType.chat, SysMsg.default, secrets.TOGETHER_BEARER_TOKEN,
          "https://api.together.xyz/v1/chat/completions",
          some ("<|eot_id|>"), AUTHED_MODELS.contains model⟩
  | some Provider.openrouter =>
    some ⟨ApiType.chat, SysMsg.default, secrets.OPENROUTER_BEARER_TOKEN,
          "https://openrouter.ai/api/v1/chat/completions",
          some ("END_OF_STREAM"), AUTHED_MODELS.contains model⟩
  | some Provider.openai =>
    some ⟨(if model == "gpt-3.5-turbo-instruct" then ApiType.instruct else ApiType.chat),
          (if model == "o1-preview" || model == "o1-mini" then SysMsg.default else SysMsg.custom),
          secrets.BEARER_TOKEN,
          (if model == "gpt-3.5-turbo-instruct" then "https://api.openai.com/v1/completions"
           else "https://api.openai.com/v1/chat/completions"),
          (if model == "o1-preview" || model == "o1-mini" || model == "gpt-5" then none
           else some ("END_OF_STREAM")),
          AUTHED_MODELS.contains model⟩

inductive GenOutcome where
  | errorPayload (msg : String)
  | dispatch (cfg : ModelConfig)

/-- Model of the Zod enum rejection produced by BodySchema when the model
identifier is not one of MODELS. -/
def unsupportedModelMsg : String := "Invalid enum value"

/-- The first-message check (part_002 lines 448-452): an empty list passes,
otherwise the first message must be from the human party. -/
def firstMessageOk (msgs : List Msg) : Bool :=
  match msgs with
  | [] => true
  | m0 :: _ => decide (m0.party = Party.human)

/-- messages.findLast of the human predicate (part_002 line 447). -/
def lastHumanMessage (msgs : List Msg) : Option Msg :=
  msgs.reverse.find? (fun m => decide (m.party = Party.human))

/-- postGenerateChatCompletionStreaming up to the dispatch decision
(part_002 lines 439-474): schema-validate the model identifier, check the
first-message invariant, require a human message, resolve the provider
configuration; reaching dispatch is the model of issuing the upstream
call. -/
def runGenerate (secrets : Secrets) (model : String) (msgs : List Msg) : GenOutcome :=
  if model ∈ MODELS then
    if firstMessageOk msgs then
      match lastHumanMessage msgs with
      | none => GenOutcome.errorPayload ("Validation error: no human message found")
      | some _ =>
        match getModelConfig secrets model with
        | none => GenOutcome.errorPayload ("Invalid model")
        | some cfg => GenOutcome.dispatch cfg
    else GenOutcome.errorPayload ("Validation error")
  else GenOutcome.errorPayload (unsupportedModelMsg)

/-! ### Concrete inputs used by the claim witnesses and counterexamples -/

/-- The testable-property byte sequence from the specification, with the
brace characters written as hexadecimal escapes. -/
def sseInput : String :=
  "data: \x7b\"choices\":[\x7b\"delta\":\x7b\"content\":\"He\"\x7d\x7d]\x7d\n\ndata: \x7b\"choices\":[\x7b\"delta\":\x7b\"content\":\"llo\"\x7d\x7d]\x7d\n\ndata: [DONE]\n\n"

def sseInputChars : Str := chars (sseInput)

def sseChunkA : Str := sseInputChars.take 20

def sseChunkB : Str := sseInputChars.drop 20

/-- An upstream stream whose DONE frame is followed by a buffered data
frame carrying the fragment X. -/
def afterDoneInput : String :=
  "data: [DONE]\n\ndata: \x7b\"choices\":[\x7b\"delta\":\x7b\"content\":\"X\"\x7d\x7d]\x7d\n\n"

def afterDoneInputChars : Str := chars (afterDoneInput)

def lineHe : Str := chars ("data: \x7b\"choices\":[\x7b\"delta\":\x7b\"content\":\"He\"\x7d\x7d]\x7d")

def lineX : Str := chars ("data: \x7b\"choices\":[\x7b\"delta\":\x7b\"content\":\"X\"\x7d\x7d]\x7d")

def choiceA : Json := Json.obj [(deltaKey, Json.obj [(contentKey, Json.str (chars ("a")))])]

def choiceB : Json := Json.obj [(deltaKey, Json.obj [(contentKey, Json.str (chars ("b")))])]

def eventAB : Json := Json.obj [(choicesKey, Json.arr [choiceA, choiceB])]

def secretsNone : Secrets := ⟨none, none, none, none, none⟩

def botMsgW : Msg := ⟨chars ("yo"), "Bot", Party.bot, "1"⟩

def humanMsgW : Msg := ⟨chars ("hi"), "You", Party.human, "2"⟩

def msgs30 : List Msg := List.replicate 30 humanMsgW

def hmacLen : String → String → List Nat := fun _ s => [s.length]

def outcomeFailW : StreamOutcome := ⟨[], true, true⟩

/-! ### Helper lemmas: the reader frame algebra -/

theorem splitAtDN_append {s f r : Str} (t : Str) (h : splitAtDN s = some (f, r)) :
    splitAtDN (s ++ t) = some (f, r ++ t) := by
  induction s generalizing f r with
  | nil => simp [splitAtDN] at h
  | cons c1 s1 ih =>
    cases s1 with
    | nil => simp [splitAtDN] at h
    | cons c2 rest =>
      simp only [List.cons_append]
      simp only [splitAtDN] at h ⊢
      split at h
      · rename_i hc
        rw [if_pos hc]
        simp only [Option.some.injEq, Prod.mk.injEq] at h
        obtain ⟨hf, hr⟩ := h
        subst hf
        subst hr
        rfl
      · rename_i hc
        rw [if_neg hc]
        cases hs : splitAtDN (c2 :: rest) with
        | none => rw [hs] at h; simp at h
        | some pr =>
          obtain ⟨f0, r0⟩ := pr
          rw [hs] at h
          simp only [Option.some.injEq, Prod.mk.injEq] at h
          obtain ⟨hf, hr⟩ := h
          have ih2 := ih hs
          simp only [List.cons_append] at ih2
          rw [ih2]
          simp [hf, hr]

theorem splitAtDN_bound {s f r : Str} (h : splitAtDN s = some (f, r)) :
    r.length + 2 ≤ s.length := by
  induction s generalizing f r with
  | nil => simp [splitAtDN] at h
  | cons c1 s1 ih =>
    cases s1 with
    | nil => simp [splitAtDN] at h
    | cons c2 rest =>
      simp only [splitAtDN] at h
      split at h
      · simp only [Option.some.injEq, Prod.mk.injEq] at h
        obtain ⟨hf, hr⟩ := h
        subst hr
        simp [List.length_cons]
      · cases hs : splitAtDN (c2 :: rest) with
        | none => rw [hs] at h; simp at h
        | some pr =>
          obtain ⟨f0, r0⟩ := pr
          rw [hs] at h
          simp only [Option.some.injEq, Prod.mk.injEq] at h
          obtain ⟨hf, hr⟩ := h
          subst hr
          have := ih hs
          simp only [List.length_cons] at this ⊢
          omega

theorem normalizeCRLF_no_cr_aux :
    ∀ (n : Nat) (s : Str), s.length ≤ n → '\r' ∉ s → normalizeCRLF s = s := by
  intro n
  induction n with
  | zero =>
    intro s hl _
    have : s.length = 0 := Nat.le_zero.mp hl
    cases s with
    | nil => rfl
    | cons c cs => simp at this
  | succ n ih =>
    intro s hl hcr
    cases s with
    | nil => rfl
    | cons c1 s1 =>
      cases s1 with
      | nil => rfl
      | cons c2 rest =>
        have h1 : c1 ≠ '\r' := fun e => hcr (by simp [e])
        simp only [normalizeCRLF]
        rw [if_neg (by simp [h1])]
        have htail : normalizeCRLF (c2 :: rest) = c2 :: rest := by
          refine ih (c2 :: rest) ?_ ?_
          · simp only [List.length_cons] at hl ⊢
            omega
          · exact fun hm => hcr (List.mem_cons_of_mem _ hm)
        rw [htail]

theorem normalizeCRLF_no_cr {s : Str} (h : '\r' ∉ s) : normalizeCRLF s = s :=
  normalizeCRLF_no_cr_aux s.length s le_rfl h

theorem map_normalizeCRLF_id {cs : List Str} (h : ∀ c ∈ cs, '\r' ∉ c) :
    cs.map normalizeCRLF = cs := by
  induction cs with
  | nil => rfl
  | cons c rest ih =>
    simp only [List.map_cons]
    rw [normalizeCRLF_no_cr (h c (List.mem_cons_self c rest)),
        ih (fun x hx => h x (List.mem_cons_of_mem c hx))]

theorem mem_concatAll {a : Char} {c : Str} {cs : List Str} (hc : c ∈ cs) (ha : a ∈ c) :
    a ∈ concatAll cs := by
  induction cs with
  | nil => simp at hc
  | cons d ds ih =>
    simp only [concatAll, List.mem_append]
    rcases List.mem_cons.mp hc with h | h
    · subst h; exact Or.inl ha
    · exact Or.inr (ih h)

theorem material_nil (b : Str) : material b [] = b := by
  simp [material, concatAll]

theorem material_cons (b c : Str) (cs : List Str) :
    material b (c :: cs) = material (b ++ normalizeCRLF c) cs := by
  simp [material, concatAll, List.append_assoc]

theorem readUntilDoubleNewline_done {cs : List Str} {b : Str}
    (h : splitAtDN (material b cs) = none) :
    readUntilDoubleNewline b cs = (true, material b cs, [], []) := by
  induction cs generalizing b with
  | nil =>
    rw [material_nil] at h ⊢
    simp only [readUntilDoubleNewline, h]
  | cons c rest ih =>
    have hb : splitAtDN b = none := by
      cases hsb : splitAtDN b with
      | none => rfl
      | some pr =>
        obtain ⟨f0, r0⟩ := pr
        have happ := splitAtDN_append (concatAll ((c :: rest).map normalizeCRLF)) hsb
        have : splitAtDN (material b (c :: rest)) =
            some (f0, r0 ++ concatAll ((c :: rest).map normalizeCRLF)) := happ
        rw [h] at this
        simp at this
    simp only [readUntilDoubleNewline, hb]
    rw [material_cons] at h ⊢
    exact ih h

theorem readUntilDoubleNewline_frame {cs : List Str} {b f rest : Str}
    (h : splitAtDN (material b cs) = some (f, rest)) :
    ∃ b2 cs2, readUntilDoubleNewline b cs = (false, f, b2, cs2) ∧ material b2 cs2 = rest := by
  induction cs generalizing b with
  | nil =>
    rw [material_nil] at h
    refine ⟨rest, [], ?_, material_nil rest⟩
    simp only [readUntilDoubleNewline, h]
  | cons c cs1 ih =>
    cases hsb : splitAtDN b with
    | some pr =>
      obtain ⟨f0, r0⟩ := pr
      have hm : splitAtDN (material b (c :: cs1)) =
          some (f0, r0 ++ concatAll ((c :: cs1).map normalizeCRLF)) :=
        splitAtDN_append (concatAll ((c :: cs1).map normalizeCRLF)) hsb
      rw [hm] at h
      simp only [Option.some.injEq, Prod.mk.injEq] at h
      obtain ⟨hf, hrest⟩ := h
      refine ⟨r0, c :: cs1, ?_, ?_⟩
      · simp only [readUntilDoubleNewline, hsb]
        rw [hf]
      · rw [material, hrest]
    | none =>
      simp only [readUntilDoubleNewline, hsb]
      rw [material_cons] at h
      exact ih h

theorem postGenerateChatLoop_eq_batch :
    ∀ (fuel : Nat) (b : Str) (cs : List Str), (material b cs).length < fuel →
      postGenerateChatLoop fuel b cs = some (chatBatch (batchFramesF fuel (material b cs))) := by
  intro fuel
  induction fuel with
  | zero => intro b cs h; exact absurd h (Nat.not_lt_zero _)
  | succ n ih =>
    intro b cs hlen
    cases hsp : splitAtDN (material b cs) with
    | none =>
      have hr := readUntilDoubleNewline_done hsp
      simp only [postGenerateChatLoop, hr, batchFramesF, hsp]
      rfl
    | some pr =>
      obtain ⟨f, rest⟩ := pr
      obtain ⟨b2, cs2, hrun, hmat⟩ := readUntilDoubleNewline_frame hsp
      have hrestlen : rest.length < n := by
        have := splitAtDN_bound hsp
        omega
      have ihr := ih b2 cs2 (by rw [hmat]; exact hrestlen)
      rw [hmat] at ihr
      simp only [postGenerateChatLoop, hrun, batchFramesF, hsp, chatBatch]
      cases hcd : chunkToDataArray f with
      | error e => simp
      | ok events =>
        cases hpe : processEvents events with
        | mk outs err =>
          cases err with
          | true => simp [hpe]
          | false =>
            rcases hcb : chatBatch (batchFramesF n rest) with ⟨rest2, err2⟩
            simp [hpe, ihr, hcb]

theorem renderLoop_eq_concatAll (l : List Msg) :
    renderLoop l = concatAll (l.map messageBlock) := by
  induction l with
  | nil => rfl
  | cons m rest ih => simp only [renderLoop, List.map_cons, concatAll, ih]

theorem streamChatCompletionLoop_cancelled :
    ∀ (fuel : Nat) (b : Str) (rs : List ReadEv) (o : StreamOutcome),
      streamChatCompletionLoop fuel b rs = some o → o.cancelled = true := by
  intro fuel
  induction fuel with
  | zero => intro b rs o h; simp [streamChatCompletionLoop] at h
  | succ n ih =>
    intro b rs o h
    simp only [streamChatCompletionLoop] at h
    split at h
    · simp only [Option.some.injEq] at h; subst h; rfl
    · simp only [Option.some.injEq] at h; subst h; rfl
    · split at h
      · simp only [Option.some.injEq] at h; subst h; rfl
      · split at h
        · simp only [Option.some.injEq] at h; subst h; rfl
        · split at h
          · simp at h
          · rename_i o1 heq
            simp only [Option.some.injEq] at h
            subst h
            simpa using ih _ _ _ heq

theorem streamInstructCompletionLoop_cancelled :
    ∀ (fuel : Nat) (b : Str) (rs : List ReadEv) (o : StreamOutcome),
      streamInstructCompletionLoop fuel b rs = some o → o.cancelled = true := by
  intro fuel
  induction fuel with
  | zero => intro b rs o h; simp [streamInstructCompletionLoop] at h
  | succ n ih =>
    intro b rs o h
    simp only [streamInstructCompletionLoop] at h
    split at h
    · simp only [Option.some.injEq] at h; subst h; rfl
    · simp only [Option.some.injEq] at h; subst h; rfl
    · split at h
      · simp only [Option.some.injEq] at h; subst h; rfl
      · split at h
        · simp only [Option.some.injEq] at h; subst h; rfl
        · split at h
          · simp at h
          · rename_i o1 heq
            simp only [Option.some.injEq] at h
            subst h
            simpa using ih _ _ _ heq

/-! ### Claim theorems -/

/-- C1: for every way of splitting the specified SSE byte sequence into a
sequence of chunks, driving readUntilDoubleNewline feeding chunkToDataArray
with the chat-style extraction over those chunks emits exactly the fragment
He followed by the fragment llo, in that order, with no error, and the loop
terminates; the output is the same constant for every chunking. -/
theorem claimC1_sse_chunking_invariance (cs : List Str) (h : concatAll cs = sseInputChars) :
    postGenerateChatLoop (sseInputChars.length + 1) [] cs =
      some ([chars ("He"), chars ("llo")], false) := by
  have hnocr : ∀ c ∈ cs, '\r' ∉ c := by
    intro c hc hmem
    have hm : '\r' ∈ sseInputChars := h ▸ mem_concatAll hc hmem
    exact absurd hm (by decide)
  have hmat : material [] cs = sseInputChars := by
    simp only [material, map_normalizeCRLF_id hnocr, List.nil_append]
    exact h
  have hred := postGenerateChatLoop_eq_batch (sseInputChars.length + 1) [] cs
    (by rw [hmat]; omega)
  rw [hmat] at hred
  rw [hred]
  rfl

theorem claimC1_witness :
    postGenerateChatLoop (sseInputChars.length + 1) [] [sseChunkA, sseChunkB] =
      some ([chars ("He"), chars ("llo")], false) :=
  claimC1_sse_chunking_invariance [sseChunkA, sseChunkB] (by
    show concatAll [sseInputChars.take 20, sseInputChars.drop 20] = sseInputChars
    simp [concatAll])

/-- C2 counterexample: on the stream whose first frame is the DONE sentinel
and whose next buffered frame carries the fragment X, the engine still
emits X: a content fragment decoded from an event positioned after the
first DONE line (in a later buffered frame) is emitted downstream, refuting
the claim that everything after the first DONE line is ignored. -/
theorem claimC2_counterexample :
    postGenerateChatLoop (afterDoneInputChars.length + 1) [] [afterDoneInputChars] =
      some ([chars ("X")], false) := by
  rfl

/-- C2 amended: the DONE sentinel only terminates the processing of the
frame it occurs in: chunkToDataArray on a line list returns exactly the
events of the lines before the first DONE line, ignoring every later line
of that frame; frames extracted later from the buffer are still processed
(as the counterexample shows). -/
theorem claimC2_done_frame_truncation (ls1 ls2 : List Str) :
    chunkGo (ls1 ++ doneLineChars :: ls2) = chunkGo ls1 := by
  induction ls1 with
  | nil => rfl
  | cons l ls ih =>
    simp only [List.cons_append, chunkGo]
    have ih2 : chunkGo (ls.append (doneLineChars :: ls2)) = chunkGo ls := ih
    rw [ih2]

/-- C3: in both part_002 streaming loops (chat style and single prompt),
every terminating run that ends in an error has cancelled the upstream
reader before the error propagates. -/
theorem claimC3_reader_cancelled_on_error :
    (∀ (fuel : Nat) (b : Str) (rs : List ReadEv) (o : StreamOutcome),
      streamChatCompletionLoop fuel b rs = some o → o.errored = true → o.cancelled = true) ∧
    (∀ (fuel : Nat) (b : Str) (rs : List ReadEv) (o : StreamOutcome),
      streamInstructCompletionLoop fuel b rs = some o → o.errored = true → o.cancelled = true) :=
  ⟨fun fuel b rs o h _ => streamChatCompletionLoop_cancelled fuel b rs o h,
   fun fuel b rs o h _ => streamInstructCompletionLoop_cancelled fuel b rs o h⟩

theorem claimC3_witness : outcomeFailW.cancelled = true :=
  claimC3_reader_cancelled_on_error.1 2 [] [ReadEv.fail] outcomeFailW rfl rfl

/-- C4: for a single-prompt (instruct) conversation, when the tokenizer
count of the rendered prompt is at least 4097 - 25 the builder fails with
the prompt-too-long error before any request value is shaped (the request
value is the model of the outbound call); otherwise the outbound request
carries max_tokens equal to 4097 - promptTokens - 25. -/
theorem claimC4_prompt_token_budget (tok : Str → Nat) (model : String) (msgs : List Msg) :
    (4097 - 25 ≤ tok (generatePrompt msgs) →
      streamInstructRequest tok model msgs = InstructResult.tooManyTokens) ∧
    (tok (generatePrompt msgs) < 4097 - 25 →
      ∃ r, streamInstructRequest tok model msgs = InstructResult.request r ∧
        r.max_tokens = 4097 - (tok (generatePrompt msgs) : Int) - 25) := by
  constructor
  · intro h
    have hc : MAX_TOKENS - TOKENS_SAFETY_MARGIN ≤ tok (generatePrompt msgs) := by
      simp only [MAX_TOKENS, TOKENS_SAFETY_MARGIN]
      omega
    simp only [streamInstructRequest, if_pos hc]
  · intro h
    have hc : ¬ (MAX_TOKENS - TOKENS_SAFETY_MARGIN ≤ tok (generatePrompt msgs)) := by
      simp only [MAX_TOKENS, TOKENS_SAFETY_MARGIN]
      omega
    refine ⟨⟨model, generatePrompt msgs,
      (MAX_TOKENS : Int) - (tok (generatePrompt msgs) : Int) - (TOKENS_SAFETY_MARGIN : Int),
      true, "END_OF_STREAM"⟩, ?_, ?_⟩
    · simp only [streamInstructRequest]
      rw [if_neg hc]
    · norm_num [MAX_TOKENS, TOKENS_SAFETY_MARGIN]

theorem claimC4_witness :
    streamInstructRequest (fun _ => 5000) "gpt-3.5-turbo-instruct" [humanMsgW] =
      InstructResult.tooManyTokens ∧
    (∃ r, streamInstructRequest (fun _ => 100) "gpt-3.5-turbo-instruct" [humanMsgW] =
      InstructResult.request r ∧ r.max_tokens = 4097 - ((100 : Nat) : Int) - 25) :=
  ⟨(claimC4_prompt_token_budget (fun _ => 5000) "gpt-3.5-turbo-instruct" [humanMsgW]).1
      (by norm_num),
   (claimC4_prompt_token_budget (fun _ => 100) "gpt-3.5-turbo-instruct" [humanMsgW]).2
      (by norm_num)⟩

/-- C5: every request body whose message list starts with a bot message, or
contains no human message at all, makes the generate endpoint answer with
the error payload and never reach the dispatch of an upstream call. -/
theorem claimC5_validation_rejects (secrets : Secrets) (model : String) (msgs : List Msg)
    (h : (∃ m0 rest, msgs = m0 :: rest ∧ m0.party = Party.bot) ∨
         (∀ m ∈ msgs, m.party ≠ Party.human)) :
    (∃ emsg, runGenerate secrets model msgs = GenOutcome.errorPayload emsg) ∧
    (∀ cfg, runGenerate secrets model msgs ≠ GenOutcome.dispatch cfg) := by
  have key : ∃ emsg, runGenerate secrets model msgs = GenOutcome.errorPayload emsg := by
    by_cases hm : model ∈ MODELS
    · rcases h with ⟨m0, rest, hmsgs, hbot⟩ | hnone
      · subst hmsgs
        refine ⟨"Validation error", ?_⟩
        have hfm : firstMessageOk (m0 :: rest) = false := by
          simp [firstMessageOk, hbot]
        simp [runGenerate, hm, hfm]
      · cases msgs with
        | nil =>
          refine ⟨"Validation error: no human message found", ?_⟩
          simp [runGenerate, hm, firstMessageOk, lastHumanMessage]
        | cons m0 rest =>
          have hbot : m0.party = Party.bot := by
            have hne := hnone m0 (List.mem_cons_self _ _)
            cases hq : m0.party with
            | human => exact absurd hq hne
            | bot => rfl
          refine ⟨"Validation error", ?_⟩
          have hfm : firstMessageOk (m0 :: rest) = false := by
            simp [firstMessageOk, hbot]
          simp [runGenerate, hm, hfm]
    · exact ⟨unsupportedModelMsg, by simp [runGenerate, hm]⟩
  obtain ⟨emsg, he⟩ := key
  refine ⟨⟨emsg, he⟩, fun cfg hc => ?_⟩
  rw [he] at hc
  exact GenOutcome.noConfusion hc

theorem claimC5_witness :
    (∃ emsg, runGenerate secretsNone "gpt-4o" [botMsgW] = GenOutcome.errorPayload emsg) ∧
    (∀ cfg, runGenerate secretsNone "gpt-4o" [botMsgW] ≠ GenOutcome.dispatch cfg) :=
  claimC5_validation_rejects secretsNone "gpt-4o" [botMsgW]
    (Or.inl ⟨botMsgW, [], rfl, rfl⟩)

/-- C6: a model identifier that is not in the provider registry makes the
generate endpoint answer with the unsupported-model error payload, before
any dispatch of an upstream call. -/
theorem claimC6_unsupported_model (secrets : Secrets) (model : String) (msgs : List Msg)
    (h : model ∉ MODELS) :
    runGenerate secrets model msgs = GenOutcome.errorPayload unsupportedModelMsg ∧
    (∀ cfg, runGenerate secrets model msgs ≠ GenOutcome.dispatch cfg) := by
  have he : runGenerate secrets model msgs = GenOutcome.errorPayload unsupportedModelMsg := by
    simp [runGenerate, h]
  refine ⟨he, fun cfg hc => ?_⟩
  rw [he] at hc
  exact GenOutcome.noConfusion hc

theorem claimC6_witness :
    runGenerate secretsNone "llama-unknown" [] = GenOutcome.errorPayload unsupportedModelMsg ∧
    (∀ cfg, runGenerate secretsNone "llama-unknown" [] ≠ GenOutcome.dispatch cfg) :=
  claimC6_unsupported_model secretsNone "llama-unknown" [] (by decide)

/-- C7: the double-HMAC comparison returns true on every pair of equal
non-empty strings and false on every pair of distinct strings, for every
hash function and every freshly drawn key. -/
theorem claimC7_time_safe_compare (hmac : String → String → List Nat) (key : String) :
    (∀ x : String, x ≠ "" → timeSafeCompare hmac key x x = true) ∧
    (∀ x y : String, x ≠ y → timeSafeCompare hmac key x y = false) := by
  constructor
  · intro x _
    simp [timeSafeCompare]
  · intro x y hxy
    simp [timeSafeCompare, hxy]

theorem claimC7_witness :
    timeSafeCompare hmacLen "k" "abc" "abc" = true ∧
    timeSafeCompare hmacLen "k" "ab" "abc" = false :=
  ⟨(claimC7_time_safe_compare hmacLen "k").1 "abc" (by decide),
   (claimC7_time_safe_compare hmacLen "k").2 "ab" "abc" (by decide)⟩

/-- C8: for a chat event whose choices field is a non-empty array and whose
last element carries a non-null delta, the engine emits the delta content
of that last element: the content string itself when present, the empty
string when the content field is absent or null. -/
theorem claimC8_last_choice_rule (ev lastC dv : Json) (l : List Json)
    (hch : jsGetField ev choicesKey = some (Json.arr l))
    (hlast : l.getLast? = some lastC)
    (hdv : jsGetField lastC deltaKey = some dv)
    (hnn : dv ≠ Json.null) :
    (∀ s, jsGetField dv contentKey = some (Json.str s) →
      chatEventContent ev = Except.ok (some s)) ∧
    ((jsGetField dv contentKey = none ∨ jsGetField dv contentKey = some Json.null) →
      chatEventContent ev = Except.ok (some [])) := by
  have hstep : chatEventContent ev = deltaContent dv := by
    simp only [chatEventContent, hch, jsFalsy]
    simp only [choicesContent, hlast]
    cases lastC with
    | null => simp [jsGetField] at hdv
    | bool b => simp [jsGetField] at hdv
    | num raw => simp [jsGetField] at hdv
    | str s => simp [jsGetField] at hdv
    | arr es => simp [jsGetField] at hdv
    | obj fields =>
      simp only [lastChoiceContent, hdv]
      cases dv with
      | null => exact absurd rfl hnn
      | bool b => rfl
      | num raw => rfl
      | str s => rfl
      | arr es => rfl
      | obj fields2 => rfl
  constructor
  · intro s hc
    rw [hstep]
    simp [deltaContent, hc]
  · intro hc
    rw [hstep]
    rcases hc with hc | hc <;> simp [deltaContent, hc]

theorem claimC8_witness : chatEventContent eventAB = Except.ok (some (chars ("b"))) :=
  (claimC8_last_choice_rule eventAB choiceB (Json.obj [(contentKey, Json.str (chars ("b")))])
      [choiceA, choiceB] rfl rfl rfl (fun hcon => Json.noConfusion hcon)).1
    (chars ("b")) rfl

/-- C9: a conversation of more than 25 messages renders as the fixed
preamble, one block per message (trimmed text, blank-line terminated) for
exactly the last 25 messages in order, and the trailing Bot cue; earlier
messages do not appear. -/
theorem claimC9_prompt_window (msgs : List Msg) (h : 25 < msgs.length) :
    generatePrompt msgs =
      promptPreamble ++ concatAll ((msgs.drop (msgs.length - 25)).map messageBlock) ++
        chars ("Bot: ") := by
  simp only [generatePrompt, jsSliceLast, renderLoop_eq_concatAll]

theorem claimC9_witness :
    generatePrompt msgs30 =
      promptPreamble ++ concatAll ((msgs30.drop (msgs30.length - 25)).map messageBlock) ++
        chars ("Bot: ") :=
  claimC9_prompt_window msgs30 (by simp [msgs30])

/-- C10: the comparison of two empty strings succeeds, so when the server
secret is absent or empty, a request with no credential cookie is judged
authorized both by the is-authed endpoint and by the privileged-model
gate. -/
theorem claimC10_empty_credential_authorized (hmac : String → String → List Nat) (key : String)
    (secretAuthKey : Option String) (hsec : secretAuthKey = none ∨ secretAuthKey = some "") :
    timeSafeCompare hmac key "" "" = true ∧
    isAuthedValue hmac key none secretAuthKey = true ∧
    authGateAllows hmac key true none secretAuthKey = true := by
  have hget : secretAuthKey.getD ("") = "" := by
    rcases hsec with h | h <;> simp [h]
  refine ⟨?_, ?_, ?_⟩
  · simp [timeSafeCompare]
  · simp [isAuthedValue, hget, timeSafeCompare]
  · simp [authGateAllows, hget, timeSafeCompare]

theorem claimC10_witness :
    timeSafeCompare hmacLen "k" "" "" = true ∧
    isAuthedValue hmacLen "k" none none = true ∧
    authGateAllows hmacLen "k" true none none = true :=
  claimC10_empty_credential_authorized hmacLen "k" none (Or.inl rfl)
